import Mathlib

/-
Verification development for the py-pilecore client-side post-processing
pipeline: the CPT result store, the spatial grouper input validation, the
cluster result aggregator, and the max-bearing envelope extractor.

The repository ships the implementation as a Python SDK; the Python modules
themselves (pypilecore.results.grouper_result, pypilecore.results.post_processing,
pypilecore.results.multi_cpt_results, pypilecore.input.grouper_properties) are
not present in this source snapshot, only their changelog entries, Sphinx
declarations and notebook call sites.  The definitions below are therefore
modelled from the specification document.  Numeric values are represented by
rationals; a float NaN entry is represented by Option.none; the variation
coefficient (standard deviation over mean, an irrational quantity) is handled
through its square, variance over squared mean, which keeps every definition
computable over the rationals and is equivalent for the nonnegative means and
standard deviations arising here.
-/

namespace PyPileCore

/-- Modelled from the spec: CPT identifier, a string unique within a project
(spec section 3, missing module pypilecore.results.multi_cpt_results). -/
abbrev CptId := String

/-- Modelled from the spec: one bearing-capacity result row per pile tip level,
with the result values in kN; a value of none stands for a float NaN entry
(spec section 3 BearingResultRow, missing module
pypilecore.results.single_cpt_results). -/
structure BearingResultRow where
  pile_tip_level_nap : ℚ
  R_b_cal : Option ℚ
  R_s_cal : Option ℚ
  F_nk_cal : Option ℚ
  R_c_cal : Option ℚ
  R_c_d_net : Option ℚ
deriving DecidableEq

/-- Modelled from the spec: the per-CPT bearing result tables keyed by CPT
identifier (spec section 2 CPT Result Store). -/
abbrev CptResultsDict := List (CptId × List BearingResultRow)

/-- Modelled from the spec: container of single-CPT bearing results, owning the
read-only mapping from CPT id to result rows (spec section 6, missing class
pypilecore.results.multi_cpt_results.SingleCPTBearingResultsContainer). -/
structure SingleCPTBearingResultsContainer where
  cpt_results_dict : CptResultsDict
deriving DecidableEq

/-- Modelled from the spec: the per-CPT results table; rows are emitted as
stored, and in particular rows holding NaN (none) values are kept, per the
0.3.2 changelog bug fix that removed NaN filtering from this table. -/
def SingleCPTBearingResultsContainer.get_results_per_cpt
    (c : SingleCPTBearingResultsContainer) : List (CptId × BearingResultRow) :=
  c.cpt_results_dict.flatMap (fun p => p.2.map (fun r => (p.1, r)))

/-- Modelled from the spec: pile tip levels are rounded to 2 decimals before
alignment (spec section 4.2 numeric semantics, changelog 0.9.1 rounding fix). -/
def roundTo2 (x : ℚ) : ℚ := (round (100 * x) : ℤ) / 100

/-- Modelled from the spec: lookup of the result rows of one CPT in the store. -/
def lookupRows (dict : CptResultsDict) (cpt : CptId) : Option (List BearingResultRow) :=
  (dict.find? (fun p => p.1 == cpt)).map Prod.snd

/-- Modelled from the spec: the R_c_d_net value of a row list at a pile tip
level, aligned on exact matching level values after rounding to 2 decimals
(spec section 4.2 numeric semantics); none when no row matches or the matching
row holds NaN. -/
def lookupValue (rows : List BearingResultRow) (level : ℚ) : Option ℚ :=
  match rows.find? (fun r => decide (roundTo2 r.pile_tip_level_nap = roundTo2 level)) with
  | none => none
  | some r => r.R_c_d_net

/-- Modelled from the spec: the R_c_d_net value contributed by one member CPT
at a pile tip level; none when the CPT is unknown, has no row at the level, or
the row holds NaN. -/
def memberValueAt (dict : CptResultsDict) (cpt : CptId) (level : ℚ) : Option ℚ :=
  (lookupRows dict cpt).bind (fun rows => lookupValue rows level)

/-- Modelled from the spec: collect the values of all members, failing to none
as soon as one member has no value (spec section 4.2: a missing row for a
member excludes the level for the whole cluster). -/
def collectValues (f : CptId → Option ℚ) : List CptId → Option (List ℚ)
  | [] => some []
  | a :: as =>
    match f a, collectValues f as with
    | some v, some vs => some (v :: vs)
    | _, _ => none

/-- Modelled from the spec: arithmetic mean of a value list (spec section 4.2). -/
def listMean (vs : List ℚ) : ℚ := vs.sum / vs.length

/-- Modelled from the spec: sample variance of a value list, the squared sample
standard deviation with denominator n - 1 (spec section 4.2). -/
def listSampleVariance (vs : List ℚ) : ℚ :=
  ((vs.map (fun v => (v - listMean vs) ^ 2)).sum) / ((vs.length : ℚ) - 1)

/-- Modelled from the spec: the squared 12 percent variation-coefficient
threshold (spec sections 3 and 4.2, changelog 1.1.3 bug fix). -/
def vcThresholdSq : ℚ := (12 / 100) ^ 2

/-- Modelled from the spec: the statistical result of one cluster at one pile
tip level (spec section 3 ClusterResult, missing class
pypilecore.results.grouper_result.SingleClusterResult). -/
structure SingleClusterResult where
  pile_tip_level_nap : ℚ
  mean_R_c_d_net : ℚ
  sample_variance : ℚ
  cpt_count : ℕ
  valid : Bool
deriving DecidableEq

/-- Modelled from the spec: the cluster result aggregator at one pile tip
level: none when some member CPT contributes no value at the level, otherwise
the mean, sample variance and count of the member values, with validity
holding exactly when the mean meets the required load and the variation
coefficient is at most 12 percent, the latter stated on squares as
variance at most the squared threshold times the squared mean
(spec sections 4.2 and 8). -/
def clusterResultAt (dict : CptResultsDict) (members : List CptId)
    (pile_load_uls : ℚ) (level : ℚ) : Option SingleClusterResult :=
  match collectValues (fun m => memberValueAt dict m level) members with
  | none => none
  | some vs =>
    let m := listMean vs
    let s2 := listSampleVariance vs
    some { pile_tip_level_nap := roundTo2 level
           mean_R_c_d_net := m
           sample_variance := s2
           cpt_count := vs.length
           valid := decide (pile_load_uls ≤ m) && decide (s2 ≤ vcThresholdSq * m ^ 2) }

/-- Modelled from the spec: a cluster, a named nonempty set of member CPT
identifiers (spec section 3 Cluster). -/
structure Cluster where
  cluster_id : String
  members : List CptId
deriving DecidableEq

/-- Modelled from the spec: whether a max-bearing origin is a single CPT or a
clustered group (spec section 3 MaxBearingResult category). -/
inductive OriginCategory where
  | single : OriginCategory
  | group : OriginCategory
deriving DecidableEq

/-- Modelled from the spec: one row of the max-bearing envelope: the selected
maximum R_c_d_net at a pile tip level together with its origin identifier and
category (spec section 3 MaxBearingResult, missing class
pypilecore.results.post_processing.MaxBearingResult). -/
structure MaxBearingResult where
  pile_tip_level_nap : ℚ
  R_c_d_net : ℚ
  origin : String
  category : OriginCategory
deriving DecidableEq

/-- Modelled from the spec: a candidate origin entry offered to the maximum
selection: origin identifier, category, and its R_c_d_net value. -/
abbrev OriginEntry := String × OriginCategory × ℚ

/-- Modelled from the spec: the clustered-group origins eligible at a pile tip
level: clusters whose result at the level exists and is valid, so the 12
percent variation-coefficient filter is applied before any maximum is computed
(spec section 4.2 bug-documented invariant, changelog 1.1.3). -/
def eligibleGroupsAt (dict : CptResultsDict) (clusters : List Cluster)
    (pile_load_uls : ℚ) (level : ℚ) : List OriginEntry :=
  clusters.filterMap (fun c =>
    match clusterResultAt dict c.members pile_load_uls level with
    | some r =>
      if r.valid then some (c.cluster_id, OriginCategory.group, r.mean_R_c_d_net)
      else none
    | none => none)

/-- Modelled from the spec: the single-CPT origins eligible at a pile tip
level: the CPTs holding a non-NaN R_c_d_net value at the level. -/
def eligibleSinglesAt (dict : CptResultsDict) (level : ℚ) : List OriginEntry :=
  dict.filterMap (fun p =>
    match lookupValue p.2 level with
    | some v => some (p.1, OriginCategory.single, v)
    | none => none)

/-- Modelled from the spec: all origins eligible at a pile tip level, the
clustered groups listed before the single CPTs so that an exact value tie is
resolved in favour of a clustered-group origin (spec section 4.3 tie-break
convention). -/
def eligibleAt (dict : CptResultsDict) (clusters : List Cluster)
    (pile_load_uls : ℚ) (level : ℚ) : List OriginEntry :=
  eligibleGroupsAt dict clusters pile_load_uls level ++ eligibleSinglesAt dict level

/-- Modelled from the spec: pick the entry of maximum value; a later entry
replaces an earlier one only when strictly greater, so the first entry
attaining the maximum wins an exact tie. -/
def pickMax : List OriginEntry → Option OriginEntry
  | [] => none
  | e :: es =>
    match pickMax es with
    | none => some e
    | some f => if e.2.2 < f.2.2 then some f else some e

/-- Modelled from the spec: the max-bearing envelope at one pile tip level:
the maximum R_c_d_net among all eligible origins, absent when no origin is
eligible (spec sections 4.3 and 8, missing class
pypilecore.results.post_processing.MaxBearingResults). -/
def maxBearingAt (dict : CptResultsDict) (clusters : List Cluster)
    (pile_load_uls : ℚ) (level : ℚ) : Option MaxBearingResult :=
  (pickMax (eligibleAt dict clusters pile_load_uls level)).map (fun e =>
    { pile_tip_level_nap := roundTo2 level
      R_c_d_net := e.2.2
      origin := e.1
      category := e.2.1 })

/-- Modelled from the spec: the pile tip level axis of an analysis run: every
level occurring in the store, rounded to 2 decimals, deduplicated, and sorted
ascending (spec section 4.2 numeric semantics and section 4.3 consistent
ordering, changelog 0.2.5 sorting fix). -/
def allLevels (dict : CptResultsDict) : List ℚ :=
  List.insertionSort (· ≤ ·)
    ((dict.flatMap (fun p => p.2.map (fun r => roundTo2 r.pile_tip_level_nap))).dedup)

/-- Modelled from the spec: the tabular projection of the max-bearing envelope,
one row per level of the run axis at which some origin is eligible. -/
def maxBearingTable (dict : CptResultsDict) (clusters : List Cluster)
    (pile_load_uls : ℚ) : List MaxBearingResult :=
  (allLevels dict).filterMap (maxBearingAt dict clusters pile_load_uls)

/-- Modelled from the spec: the tabular projection of one cluster, one row per
level of the run axis at which every member contributes a value. -/
def clusterResultsTable (dict : CptResultsDict) (members : List CptId)
    (pile_load_uls : ℚ) : List SingleClusterResult :=
  (allLevels dict).filterMap (clusterResultAt dict members pile_load_uls)

/-- Modelled from the spec: the max-bearing results object with its on-demand
cached tabular projection (spec section 4.3, changelog 0.4.0 lru_cache on
MaxBearingResults.to_pandas; missing class
pypilecore.results.post_processing.MaxBearingResults). -/
structure MaxBearingResults where
  cpt_results_dict : CptResultsDict
  clusters : List Cluster
  pile_load_uls : ℚ
  cache : Option (List MaxBearingResult)
deriving DecidableEq

/-- Modelled from the spec: the tabular projection, computed on demand and
cached: a second call returns the cached table without recomputation. -/
def MaxBearingResults.to_pandas (r : MaxBearingResults) :
    List MaxBearingResult × MaxBearingResults :=
  match r.cache with
  | some t => (t, r)
  | none =>
    let t := maxBearingTable r.cpt_results_dict r.clusters r.pile_load_uls
    (t, { r with cache := some t })

/-- Modelled from the spec: the payload accepted by the grouper endpoint
(spec section 4.1, missing function
pypilecore.input.grouper_properties.create_grouper_payload). -/
structure GrouperPayload where
  cpt_ids : List CptId
  pile_load_uls : ℚ
deriving DecidableEq

/-- Modelled from the spec: grouper payload construction fails fast with a
validation error when fewer than 2 CPTs are supplied (spec sections 4.1 and 7,
changelog 0.7.0: throw ValueError when providing less than 2 CPTs). -/
def create_grouper_payload (cpt_results_dict : CptResultsDict)
    (pile_load_uls : ℚ) : Except String GrouperPayload :=
  if cpt_results_dict.length < 2 then
    Except.error "create_grouper_payload requires at least 2 CPTs"
  else
    Except.ok { cpt_ids := cpt_results_dict.map Prod.fst
                pile_load_uls := pile_load_uls }

/-- Concrete row with a given level and R_c_d_net value, used by witnesses. -/
def mkRow (level v : ℚ) : BearingResultRow :=
  { pile_tip_level_nap := level
    R_b_cal := none
    R_s_cal := none
    F_nk_cal := none
    R_c_cal := none
    R_c_d_net := some v }

/-- Concrete row holding a NaN (none) R_c_d_net value, used by witnesses. -/
def rowNaN (level : ℚ) : BearingResultRow :=
  { pile_tip_level_nap := level
    R_b_cal := none
    R_s_cal := none
    F_nk_cal := none
    R_c_cal := none
    R_c_d_net := none }

/-- Concrete store: CPTs A and B both at 500 kN at level -15, used by witnesses. -/
def dictTie : CptResultsDict := [("A", [mkRow (-15) 500]), ("B", [mkRow (-15) 500])]

/-- Concrete cluster of CPTs A and B, used by witnesses. -/
def clusterAB : Cluster := { cluster_id := "AB", members := ["A", "B"] }

/-- Concrete store of the spec scenario: A at 300 kN and B at 700 kN at level
-15, whose cluster mean 500 passes the 400 kN load check but whose variation
coefficient is 40 percent. -/
def dictSpread : CptResultsDict := [("A", [mkRow (-15) 300]), ("B", [mkRow (-15) 700])]

/-- Concrete store of the spec scenario: A at 500 kN and B at 520 kN at level
-15, giving mean 510 and sample variance 200. -/
def dictScenario : CptResultsDict := [("A", [mkRow (-15) 500]), ("B", [mkRow (-15) 520])]

/-- Concrete store of the spec scenario: A has no row at level -18 while its
cluster partner B has one; both have rows at level -15. -/
def dictGap : CptResultsDict :=
  [("A", [mkRow (-15) 500]), ("B", [mkRow (-15) 520, mkRow (-18) 480])]

/-- Concrete store with a single CPT, used by witnesses. -/
def dictSingle : CptResultsDict := [("A", [mkRow (-15) 500])]

/-- Concrete container holding a NaN (none) result row, used by witnesses. -/
def containerNaN : SingleCPTBearingResultsContainer :=
  { cpt_results_dict := [("A", [mkRow (-15) 500, rowNaN (-18)])] }

/-- Rounding to 2 decimals is idempotent. -/
theorem roundTo2_idem (x : ℚ) : roundTo2 (roundTo2 x) = roundTo2 x := by
  unfold roundTo2
  have h : (100 : ℚ) * ((round (100 * x) : ℤ) / 100) = ((round (100 * x) : ℤ) : ℚ) := by
    ring
  rw [h, round_intCast]

/-- Store lookup on an empty store. -/
theorem lookupRows_nil (cpt : CptId) : lookupRows [] cpt = none := rfl

/-- Store lookup finds the head entry when its identifier matches. -/
theorem lookupRows_cons_eq (id : CptId) (rows : List BearingResultRow)
    (dict : CptResultsDict) (cpt : CptId) (h : id = cpt) :
    lookupRows ((id, rows) :: dict) cpt = some rows := by
  simp [lookupRows, List.find?_cons, h]

/-- Store lookup skips the head entry when its identifier differs. -/
theorem lookupRows_cons_ne (id : CptId) (rows : List BearingResultRow)
    (dict : CptResultsDict) (cpt : CptId) (h : ¬ id = cpt) :
    lookupRows ((id, rows) :: dict) cpt = lookupRows dict cpt := by
  simp [lookupRows, List.find?_cons, h]

/-- Value lookup on an empty row list. -/
theorem lookupValue_nil (level : ℚ) : lookupValue [] level = none := rfl

/-- Value lookup takes the head row when the rounded levels match. -/
theorem lookupValue_cons_eq (r : BearingResultRow) (rows : List BearingResultRow)
    (level : ℚ) (h : roundTo2 r.pile_tip_level_nap = roundTo2 level) :
    lookupValue (r :: rows) level = r.R_c_d_net := by
  simp [lookupValue, List.find?_cons, h]

/-- Value lookup skips the head row when the rounded levels differ. -/
theorem lookupValue_cons_ne (r : BearingResultRow) (rows : List BearingResultRow)
    (level : ℚ) (h : ¬ roundTo2 r.pile_tip_level_nap = roundTo2 level) :
    lookupValue (r :: rows) level = lookupValue rows level := by
  simp [lookupValue, List.find?_cons, h]

/-- Value lookup depends on the level only through its rounding to 2 decimals. -/
theorem lookupValue_congr (rows : List BearingResultRow) (x y : ℚ)
    (h : roundTo2 x = roundTo2 y) : lookupValue rows x = lookupValue rows y := by
  unfold lookupValue
  rw [h]

/-- Collecting fails as soon as one member has no value. -/
theorem collectValues_eq_none (f : CptId → Option ℚ) (l : List CptId) (a : CptId)
    (ha : a ∈ l) (hfa : f a = none) : collectValues f l = none := by
  induction l with
  | nil => cases ha
  | cons b bs ih =>
    rcases List.mem_cons.mp ha with rfl | hmem
    · simp [collectValues, hfa]
    · cases hfb : f b <;> simp [collectValues, hfb, ih hmem]

/-- Collecting succeeds when every member has a value. -/
theorem collectValues_isSome (f : CptId → Option ℚ) (l : List CptId)
    (h : ∀ a ∈ l, (f a).isSome) : (collectValues f l).isSome := by
  induction l with
  | nil => simp [collectValues]
  | cons b bs ih =>
    have hb := h b (List.mem_cons_self b bs)
    have hbs := ih (fun a ha => h a (List.mem_cons_of_mem b ha))
    cases hfb : f b with
    | none => rw [hfb] at hb; cases hb
    | some v =>
      cases hrec : collectValues f bs with
      | none => rw [hrec] at hbs; cases hbs
      | some vs => simp [collectValues, hfb, hrec]

/-- Collecting preserves the member count. -/
theorem collectValues_length (f : CptId → Option ℚ) (l : List CptId) (vs : List ℚ)
    (h : collectValues f l = some vs) : vs.length = l.length := by
  induction l generalizing vs with
  | nil => simp [collectValues] at h; simp [← h]
  | cons b bs ih =>
    cases hfb : f b with
    | none => simp [collectValues, hfb] at h
    | some v =>
      cases hrec : collectValues f bs with
      | none => simp [collectValues, hfb, hrec] at h
      | some ws =>
        simp [collectValues, hfb, hrec] at h
        simp [← h, ih ws hrec]

/-- The entry picked from a candidate list is a member of that list. -/
theorem pickMax_mem (l : List OriginEntry) (e : OriginEntry)
    (h : pickMax l = some e) : e ∈ l := by
  induction l generalizing e with
  | nil => simp [pickMax] at h
  | cons a as ih =>
    cases hrec : pickMax as with
    | none =>
      simp only [pickMax, hrec] at h
      exact (Option.some.inj h) ▸ List.mem_cons_self a as
    | some f =>
      simp only [pickMax, hrec] at h
      by_cases hlt : a.2.2 < f.2.2
      · rw [if_pos hlt] at h
        have hef : f = e := Option.some.inj h
        exact List.mem_cons_of_mem a (hef ▸ ih f hrec)
      · rw [if_neg hlt] at h
        exact (Option.some.inj h) ▸ List.mem_cons_self a as

/-- The entry picked from a candidate list carries the maximum value. -/
theorem pickMax_le (l : List OriginEntry) (e : OriginEntry)
    (h : pickMax l = some e) : ∀ x ∈ l, x.2.2 ≤ e.2.2 := by
  induction l generalizing e with
  | nil => simp [pickMax] at h
  | cons a as ih =>
    intro x hx
    cases hrec : pickMax as with
    | none =>
      simp only [pickMax, hrec] at h
      have hnil : as = [] := by
        cases as with
        | nil => rfl
        | cons b bs =>
          exfalso
          revert hrec
          simp only [pickMax]
          cases pickMax bs <;> [skip; rename_i g] <;> intro hrec
          · cases hrec
          · revert hrec
            by_cases hbg : b.2.2 < g.2.2 <;> simp [hbg]
      subst hnil
      rcases List.mem_cons.mp hx with rfl | hxs
      · rw [← Option.some.inj h]
      · cases hxs
    | some f =>
      simp only [pickMax, hrec] at h
      by_cases hlt : a.2.2 < f.2.2
      · rw [if_pos hlt] at h
        have he : e = f := (Option.some.inj h).symm
        subst he
        rcases List.mem_cons.mp hx with rfl | hxs
        · exact le_of_lt hlt
        · exact ih e hrec x hxs
      · rw [if_neg hlt] at h
        have he : e = a := (Option.some.inj h).symm
        subst he
        rcases List.mem_cons.mp hx with rfl | hxs
        · exact le_refl _
        · exact le_trans (ih f hrec x hxs) (not_lt.mp hlt)

/-- Nothing is picked from a candidate list exactly when it is empty. -/
theorem pickMax_eq_none_iff (l : List OriginEntry) : pickMax l = none ↔ l = [] := by
  cases l with
  | nil => simp [pickMax]
  | cons a as =>
    simp only [pickMax]
    cases pickMax as with
    | none => simp
    | some f => by_cases hlt : a.2.2 < f.2.2 <;> simp [hlt]

/-- When some entry of the group prefix attains the maximum of the whole
candidate list, the picked entry lies in a group. -/
theorem pickMax_group_first (gs ss : List OriginEntry)
    (hgs : ∀ x ∈ gs, x.2.1 = OriginCategory.group)
    (e : OriginEntry) (he : e ∈ gs) (hmax : ∀ x ∈ gs ++ ss, x.2.2 ≤ e.2.2) :
    ∃ x, pickMax (gs ++ ss) = some x ∧ x.2.1 = OriginCategory.group := by
  induction gs with
  | nil => cases he
  | cons a gs' ih =>
    rw [List.cons_append]
    cases hrec : pickMax (gs' ++ ss) with
    | none =>
      exact ⟨a, by simp only [pickMax, hrec], hgs a (List.mem_cons_self a gs')⟩
    | some f =>
      by_cases hlt : a.2.2 < f.2.2
      · rcases List.mem_cons.mp he with rfl | he'
        · exfalso
          have hfmem : f ∈ gs' ++ ss := pickMax_mem _ _ hrec
          have : f.2.2 ≤ e.2.2 :=
            hmax f (List.mem_cons_of_mem e hfmem)
          exact absurd hlt (not_lt.mpr this)
        · obtain ⟨x, hx, hxg⟩ :=
            ih (fun y hy => hgs y (List.mem_cons_of_mem a hy)) he'
              (fun y hy => hmax y (List.mem_cons_of_mem a hy))
          rw [hrec] at hx
          have hfx : f = x := Option.some.inj hx
          refine ⟨f, ?_, hfx ▸ hxg⟩
          simp only [pickMax, hrec, if_pos hlt]
      · refine ⟨a, ?_, hgs a (List.mem_cons_self a gs')⟩
        simp only [pickMax, hrec, if_neg hlt]

/-- Characterization of the eligible clustered-group origins: exactly the
clusters whose result at the level exists and is valid. -/
theorem mem_eligibleGroupsAt_iff (dict : CptResultsDict) (clusters : List Cluster)
    (load level : ℚ) (e : OriginEntry) :
    e ∈ eligibleGroupsAt dict clusters load level ↔
      ∃ c ∈ clusters, ∃ r, clusterResultAt dict c.members load level = some r ∧
        r.valid = true ∧ e = (c.cluster_id, OriginCategory.group, r.mean_R_c_d_net) := by
  unfold eligibleGroupsAt
  rw [List.mem_filterMap]
  constructor
  · rintro ⟨c, hc, hfc⟩
    refine ⟨c, hc, ?_⟩
    cases hcr : clusterResultAt dict c.members load level with
    | none => rw [hcr] at hfc; cases hfc
    | some r =>
      rw [hcr] at hfc
      dsimp only at hfc
      by_cases hv : r.valid
      · rw [if_pos hv] at hfc
        exact ⟨r, rfl, hv, (Option.some.inj hfc).symm⟩
      · rw [if_neg hv] at hfc
        cases hfc
  · rintro ⟨c, hc, r, hcr, hv, rfl⟩
    exact ⟨c, hc, by rw [hcr]; dsimp only; rw [if_pos hv]⟩

/-- Characterization of the eligible single-CPT origins: exactly the store
entries holding a value at the level. -/
theorem mem_eligibleSinglesAt_iff (dict : CptResultsDict) (level : ℚ)
    (e : OriginEntry) :
    e ∈ eligibleSinglesAt dict level ↔
      ∃ p ∈ dict, ∃ v, lookupValue p.2 level = some v ∧
        e = (p.1, OriginCategory.single, v) := by
  unfold eligibleSinglesAt
  rw [List.mem_filterMap]
  constructor
  · rintro ⟨p, hp, hfp⟩
    refine ⟨p, hp, ?_⟩
    cases hlv : lookupValue p.2 level with
    | none => rw [hlv] at hfp; cases hfp
    | some v =>
      rw [hlv] at hfp
      exact ⟨v, rfl, (Option.some.inj hfp).symm⟩
  · rintro ⟨p, hp, v, hlv, rfl⟩
    exact ⟨p, hp, by rw [hlv]⟩

/-- Every eligible clustered-group entry carries the group category. -/
theorem eligibleGroupsAt_category (dict : CptResultsDict) (clusters : List Cluster)
    (load level : ℚ) (e : OriginEntry)
    (h : e ∈ eligibleGroupsAt dict clusters load level) :
    e.2.1 = OriginCategory.group := by
  obtain ⟨c, _, r, _, _, rfl⟩ := (mem_eligibleGroupsAt_iff dict clusters load level e).mp h
  rfl

/-- Every eligible single-CPT entry carries the single category. -/
theorem eligibleSinglesAt_category (dict : CptResultsDict) (level : ℚ)
    (e : OriginEntry) (h : e ∈ eligibleSinglesAt dict level) :
    e.2.1 = OriginCategory.single := by
  obtain ⟨p, _, v, _, rfl⟩ := (mem_eligibleSinglesAt_iff dict level e).mp h
  rfl

/-- The level recorded in a max-bearing row is the rounded query level. -/
theorem maxBearingAt_level (dict : CptResultsDict) (clusters : List Cluster)
    (load level : ℚ) (res : MaxBearingResult)
    (h : maxBearingAt dict clusters load level = some res) :
    res.pile_tip_level_nap = roundTo2 level := by
  unfold maxBearingAt at h
  cases hp : pickMax (eligibleAt dict clusters load level) with
  | none => rw [hp] at h; cases h
  | some e =>
    rw [hp] at h
    rw [← Option.some.inj h]

/-- The max-bearing row at a level arises from the picked eligible entry. -/
theorem maxBearingAt_eq_some_iff (dict : CptResultsDict) (clusters : List Cluster)
    (load level : ℚ) (res : MaxBearingResult) :
    maxBearingAt dict clusters load level = some res ↔
      ∃ e, pickMax (eligibleAt dict clusters load level) = some e ∧
        res = { pile_tip_level_nap := roundTo2 level, R_c_d_net := e.2.2,
                origin := e.1, category := e.2.1 } := by
  unfold maxBearingAt
  cases hp : pickMax (eligibleAt dict clusters load level) with
  | none =>
    constructor
    · intro h
      exact absurd h (by simp)
    · rintro ⟨e, he, _⟩
      cases he
  | some e =>
    constructor
    · intro h
      exact ⟨e, rfl, (Option.some.inj h).symm⟩
    · rintro ⟨f, hf, rfl⟩
      rw [Option.some.inj hf]
      rfl

/-- The level recorded in a cluster result row is the rounded query level. -/
theorem clusterResultAt_level (dict : CptResultsDict) (members : List CptId)
    (load level : ℚ) (r : SingleClusterResult)
    (h : clusterResultAt dict members load level = some r) :
    r.pile_tip_level_nap = roundTo2 level := by
  unfold clusterResultAt at h
  cases hc : collectValues (fun m => memberValueAt dict m level) members with
  | none => rw [hc] at h; cases h
  | some vs =>
    rw [hc] at h
    rw [← Option.some.inj h]

/-- The run level axis is sorted ascending. -/
theorem allLevels_sorted (dict : CptResultsDict) :
    List.Sorted (· ≤ ·) (allLevels dict) :=
  List.sorted_insertionSort _ _

/-- Every level of the run axis is already rounded to 2 decimals. -/
theorem mem_allLevels_round (dict : CptResultsDict) (L : ℚ)
    (h : L ∈ allLevels dict) : roundTo2 L = L := by
  unfold allLevels at h
  rw [(List.perm_insertionSort _ _).mem_iff, List.mem_dedup, List.mem_flatMap] at h
  obtain ⟨p, _, hL⟩ := h
  rw [List.mem_map] at hL
  obtain ⟨r, _, hr⟩ := hL
  rw [← hr, roundTo2_idem]

/-- The levels of rows obtained by filtering a level list through a row
producer that stamps each row with its source level form a sublist. -/
theorem levels_filterMap_sublist {β : Type} (f : ℚ → Option β) (g : β → ℚ) :
    ∀ ls : List ℚ, (∀ L ∈ ls, ∀ b, f L = some b → g b = L) →
      List.Sublist ((ls.filterMap f).map g) ls := by
  intro ls
  induction ls with
  | nil => intro _; simp
  | cons a tl ih =>
    intro h
    rw [List.filterMap_cons]
    cases hfa : f a with
    | none =>
      exact List.Sublist.cons a
        (ih (fun L hL => h L (List.mem_cons_of_mem a hL)))
    | some b =>
      rw [List.map_cons, h a (List.mem_cons_self a tl) b hfa]
      exact List.Sublist.cons₂ a
        (ih (fun L hL => h L (List.mem_cons_of_mem a hL)))

/-- Characterization of a produced cluster result: the collected member values
exist and the row records their mean, sample variance, count, and the validity
flag combining the load check and the variation-coefficient check. -/
theorem clusterResultAt_some_iff (dict : CptResultsDict) (members : List CptId)
    (load level : ℚ) (r : SingleClusterResult) :
    clusterResultAt dict members load level = some r ↔
      ∃ vs, collectValues (fun m => memberValueAt dict m level) members = some vs ∧
        r = { pile_tip_level_nap := roundTo2 level
              mean_R_c_d_net := listMean vs
              sample_variance := listSampleVariance vs
              cpt_count := vs.length
              valid := decide (load ≤ listMean vs) &&
                decide (listSampleVariance vs ≤ vcThresholdSq * (listMean vs) ^ 2) } := by
  unfold clusterResultAt
  cases hc : collectValues (fun m => memberValueAt dict m level) members with
  | none =>
    constructor
    · intro h
      cases h
    · rintro ⟨vs, hvs, _⟩
      cases hvs
  | some vs =>
    constructor
    · intro h
      exact ⟨vs, rfl, (Option.some.inj h).symm⟩
    · rintro ⟨ws, hws, rfl⟩
      rw [Option.some.inj hws]

/-- The validity flag of a produced cluster result decodes to the load check
together with the squared variation-coefficient check. -/
theorem clusterResultAt_valid_iff (dict : CptResultsDict) (members : List CptId)
    (load level : ℚ) (r : SingleClusterResult)
    (h : clusterResultAt dict members load level = some r) :
    r.valid = true ↔
      load ≤ r.mean_R_c_d_net ∧
        r.sample_variance ≤ vcThresholdSq * r.mean_R_c_d_net ^ 2 := by
  obtain ⟨vs, hvs, rfl⟩ := (clusterResultAt_some_iff dict members load level r).mp h
  simp [Bool.and_eq_true, decide_eq_true_iff]

/-- C1: every max-bearing row whose origin has the group category comes from a
cluster of the input whose result at that level exists and is valid, so its
mean meets the required load and its sample variance is within the squared
12 percent variation-coefficient bound; the validity filter is applied inside
the eligibility computation, before the maximum is taken, so no max-bearing
value ever originates from a cluster row whose variation coefficient exceeds
12 percent, even when its mean meets the required load. -/
theorem max_bearing_group_origin_vc_filtered
    (dict : CptResultsDict) (clusters : List Cluster) (load level : ℚ)
    (res : MaxBearingResult)
    (hmax : maxBearingAt dict clusters load level = some res)
    (hcat : res.category = OriginCategory.group) :
    ∃ c ∈ clusters, ∃ r, clusterResultAt dict c.members load level = some r ∧
      res.origin = c.cluster_id ∧ res.R_c_d_net = r.mean_R_c_d_net ∧
      r.valid = true ∧
      load ≤ r.mean_R_c_d_net ∧
      r.sample_variance ≤ vcThresholdSq * r.mean_R_c_d_net ^ 2 := by
  obtain ⟨e, hpick, rfl⟩ :=
    (maxBearingAt_eq_some_iff dict clusters load level res).mp hmax
  have hemem : e ∈ eligibleAt dict clusters load level := pickMax_mem _ _ hpick
  rw [eligibleAt, List.mem_append] at hemem
  rcases hemem with hg | hs
  · obtain ⟨c, hc, r, hcr, hvalid, he⟩ :=
      (mem_eligibleGroupsAt_iff dict clusters load level e).mp hg
    have hload := ((clusterResultAt_valid_iff dict c.members load level r hcr).mp hvalid).1
    have hvc := ((clusterResultAt_valid_iff dict c.members load level r hcr).mp hvalid).2
    subst he
    exact ⟨c, hc, r, hcr, rfl, rfl, hvalid, hload, hvc⟩
  · exfalso
    have hsing := eligibleSinglesAt_category dict level e hs
    rw [hsing] at hcat
    cases hcat

/-- C2: the max-bearing row at a pile tip level, when present, carries exactly
the maximum R_c_d_net over all eligible origins at that level, its recorded
origin being one of them; and when no origin is eligible at the level the
result is absent, not a silently substituted zero or NaN. -/
theorem max_bearing_envelope_value (dict : CptResultsDict) (clusters : List Cluster)
    (load level : ℚ) :
    (∀ res, maxBearingAt dict clusters load level = some res →
        (res.origin, res.category, res.R_c_d_net) ∈ eligibleAt dict clusters load level ∧
        ∀ e ∈ eligibleAt dict clusters load level, e.2.2 ≤ res.R_c_d_net) ∧
    (eligibleAt dict clusters load level = [] →
        maxBearingAt dict clusters load level = none) := by
  constructor
  · intro res hres
    obtain ⟨e, hpick, rfl⟩ :=
      (maxBearingAt_eq_some_iff dict clusters load level res).mp hres
    exact ⟨pickMax_mem _ _ hpick, fun f hf => pickMax_le _ _ hpick f hf⟩
  · intro hnil
    unfold maxBearingAt
    rw [hnil]
    rfl

/-- C9: whenever a clustered-group origin is eligible at a pile tip level and
its value is greatest among all eligible origins, in particular when a single
CPT origin attains exactly the same value, the selected max-bearing row records
a group-category origin. -/
theorem max_bearing_tie_prefers_group (dict : CptResultsDict)
    (clusters : List Cluster) (load level : ℚ) (e : OriginEntry)
    (he : e ∈ eligibleAt dict clusters load level)
    (hg : e.2.1 = OriginCategory.group)
    (hmax : ∀ x ∈ eligibleAt dict clusters load level, x.2.2 ≤ e.2.2) :
    ∃ res, maxBearingAt dict clusters load level = some res ∧
      res.category = OriginCategory.group ∧ res.R_c_d_net = e.2.2 := by
  have hein : e ∈ eligibleGroupsAt dict clusters load level := by
    rw [eligibleAt, List.mem_append] at he
    rcases he with h | h
    · exact h
    · exfalso
      have hsing := eligibleSinglesAt_category dict level e h
      rw [hsing] at hg
      cases hg
  obtain ⟨x, hx, hxg⟩ :=
    pickMax_group_first (eligibleGroupsAt dict clusters load level)
      (eligibleSinglesAt dict level)
      (fun y hy => eligibleGroupsAt_category dict clusters load level y hy)
      e hein hmax
  have hxpick : pickMax (eligibleAt dict clusters load level) = some x := hx
  refine ⟨{ pile_tip_level_nap := roundTo2 level, R_c_d_net := x.2.2,
            origin := x.1, category := x.2.1 }, ?_, hxg, ?_⟩
  · exact (maxBearingAt_eq_some_iff dict clusters load level _).mpr ⟨x, hxpick, rfl⟩
  · exact le_antisymm (hmax x (pickMax_mem _ _ hxpick)) (pickMax_le _ _ hxpick e he)

/-- C3: a cluster result produced for at least 2 contributing members records
the mean of the member R_c_d_net values, the sample variance, the squared
sample standard deviation with denominator n minus 1, and a validity flag
holding exactly when the mean meets the required load and the variation
coefficient is at most 12 percent, the latter stated on squares as the sample
variance being at most the squared threshold times the squared mean. -/
theorem cluster_result_statistics (dict : CptResultsDict) (members : List CptId)
    (load level : ℚ) (r : SingleClusterResult)
    (h : clusterResultAt dict members load level = some r)
    (hn : 2 ≤ r.cpt_count) :
    ∃ vs, collectValues (fun m => memberValueAt dict m level) members = some vs ∧
      vs.length = r.cpt_count ∧ 2 ≤ vs.length ∧
      r.mean_R_c_d_net = vs.sum / vs.length ∧
      r.sample_variance =
        ((vs.map (fun v => (v - vs.sum / vs.length) ^ 2)).sum) / ((vs.length : ℚ) - 1) ∧
      (r.valid = true ↔
        load ≤ r.mean_R_c_d_net ∧
          r.sample_variance ≤ (12 / 100) ^ 2 * r.mean_R_c_d_net ^ 2) := by
  obtain ⟨vs, hvs, rfl⟩ :=
    (clusterResultAt_some_iff dict members load level r).mp h
  refine ⟨vs, hvs, rfl, hn, rfl, rfl, ?_⟩
  simp [Bool.and_eq_true, decide_eq_true_iff, vcThresholdSq]

/-- C4: a member CPT contributing no value at a pile tip level removes exactly
that level from the cluster: the cluster result at the level is absent, never
an error, while every level at which all members contribute a value still
receives a cluster result. -/
theorem cluster_missing_level_local (dict : CptResultsDict) (members : List CptId)
    (load : ℚ) :
    (∀ level, (∃ m ∈ members, memberValueAt dict m level = none) →
        clusterResultAt dict members load level = none) ∧
    (∀ level, (∀ m ∈ members, (memberValueAt dict m level).isSome) →
        (clusterResultAt dict members load level).isSome) := by
  constructor
  · rintro level ⟨m, hm, hval⟩
    unfold clusterResultAt
    rw [collectValues_eq_none (fun m => memberValueAt dict m level) members m hm hval]
  · intro level hall
    have hsome := collectValues_isSome (fun m => memberValueAt dict m level) members hall
    unfold clusterResultAt
    cases hc : collectValues (fun m => memberValueAt dict m level) members with
    | none => rw [hc] at hsome; cases hsome
    | some vs => simp only [hc, Option.isSome_some]

/-- C5: supplying fewer than 2 CPTs to grouper payload construction raises the
validation error naming the violated constraint and yields no payload at all;
while an empty candidate set at a pile tip level is an ordinary representable
outcome: with no clusters the eligible group list is empty, and with no
eligible origin at all the max-bearing result is plain absence, not an
exception. -/
theorem create_grouper_payload_validation (dict : CptResultsDict) (load : ℚ)
    (h : dict.length < 2) :
    create_grouper_payload dict load =
      Except.error "create_grouper_payload requires at least 2 CPTs" ∧
    (∀ p : GrouperPayload, ¬ create_grouper_payload dict load = Except.ok p) ∧
    (∀ level, eligibleGroupsAt dict [] load level = []) ∧
    (∀ clusters level, eligibleAt dict clusters load level = [] →
        maxBearingAt dict clusters load level = none) := by
  refine ⟨?_, ?_, ?_, ?_⟩
  · unfold create_grouper_payload
    rw [if_pos h]
  · intro p hp
    unfold create_grouper_payload at hp
    rw [if_pos h] at hp
    cases hp
  · intro level
    rfl
  · intro clusters level hnil
    unfold maxBearingAt
    rw [hnil]
    rfl

/-- C6: levels align across CPTs on exact matching values after rounding to 2
decimals, value lookup depending on a level only through its rounding; and the
pile tip level axis of a run is sorted ascending, every tabular output listing
its levels as a sublist of that axis, hence in an order consistent across all
outputs of the run, never mixed. -/
theorem pile_tip_level_alignment_and_ordering (dict : CptResultsDict)
    (clusters : List Cluster) (members : List CptId) (load : ℚ) :
    (∀ rows x y, roundTo2 x = roundTo2 y → lookupValue rows x = lookupValue rows y) ∧
    List.Sorted (· ≤ ·) (allLevels dict) ∧
    List.Sublist
      ((maxBearingTable dict clusters load).map MaxBearingResult.pile_tip_level_nap)
      (allLevels dict) ∧
    List.Sorted (· ≤ ·)
      ((maxBearingTable dict clusters load).map MaxBearingResult.pile_tip_level_nap) ∧
    List.Sublist
      ((clusterResultsTable dict members load).map SingleClusterResult.pile_tip_level_nap)
      (allLevels dict) ∧
    List.Sorted (· ≤ ·)
      ((clusterResultsTable dict members load).map SingleClusterResult.pile_tip_level_nap) := by
  have hsorted := allLevels_sorted dict
  have hsub1 : List.Sublist
      ((maxBearingTable dict clusters load).map MaxBearingResult.pile_tip_level_nap)
      (allLevels dict) := by
    unfold maxBearingTable
    apply levels_filterMap_sublist
    intro L hL b hfb
    rw [maxBearingAt_level dict clusters load L b hfb, mem_allLevels_round dict L hL]
  have hsub2 : List.Sublist
      ((clusterResultsTable dict members load).map SingleClusterResult.pile_tip_level_nap)
      (allLevels dict) := by
    unfold clusterResultsTable
    apply levels_filterMap_sublist
    intro L hL b hfb
    rw [clusterResultAt_level dict members load L b hfb, mem_allLevels_round dict L hL]
  exact ⟨lookupValue_congr, hsorted, hsub1, hsorted.sublist hsub1, hsub2,
    hsorted.sublist hsub2⟩

/-- C7: the cached tabular projection is idempotent: calling it a second time
on the object returned by the first call yields the identical table, in both
values and row ordering; and on a freshly built object the first call returns
exactly the computed table and stores it in the cache. -/
theorem to_pandas_idempotent (dict : CptResultsDict) (clusters : List Cluster)
    (load : ℚ) :
    (∀ r : MaxBearingResults, ((r.to_pandas.2).to_pandas).1 = r.to_pandas.1) ∧
    ((MaxBearingResults.mk dict clusters load none).to_pandas.1 =
      maxBearingTable dict clusters load) ∧
    ((MaxBearingResults.mk dict clusters load none).to_pandas.2.cache =
      some (maxBearingTable dict clusters load)) := by
  refine ⟨?_, rfl, rfl⟩
  intro r
  cases hc : r.cache with
  | some t => simp [MaxBearingResults.to_pandas, hc]
  | none => simp [MaxBearingResults.to_pandas, hc]

/-- C8: a singleton cluster reproduces the single CPT unchanged: at every pile
tip level where the CPT contributes a value, the cluster result exists, its
mean is exactly that value and its contributing count is 1. -/
theorem singleton_cluster_identity (dict : CptResultsDict) (load level : ℚ)
    (c : CptId) (v : ℚ) (h : memberValueAt dict c level = some v) :
    ∃ r, clusterResultAt dict [c] load level = some r ∧
      r.mean_R_c_d_net = v ∧ r.cpt_count = 1 := by
  have hcoll : collectValues (fun m => memberValueAt dict m level) [c] = some [v] := by
    simp [collectValues, h]
  refine ⟨_, (clusterResultAt_some_iff dict [c] load level _).mpr ⟨[v], hcoll, rfl⟩, ?_, rfl⟩
  show listMean [v] = v
  simp [listMean]

/-- C10: the per-CPT results table emits every stored row: the row count is
the total over all CPTs and each stored row appears, in particular rows whose
R_c_d_net value is NaN (none) are not filtered out. -/
theorem get_results_per_cpt_preserves_nan (c : SingleCPTBearingResultsContainer) :
    (c.get_results_per_cpt.length =
      (c.cpt_results_dict.map (fun p => p.2.length)).sum) ∧
    (∀ id rows row, (id, rows) ∈ c.cpt_results_dict → row ∈ rows →
        (id, row) ∈ c.get_results_per_cpt) := by
  constructor
  · unfold SingleCPTBearingResultsContainer.get_results_per_cpt
    rw [List.length_flatMap]
    congr 1
    apply List.map_congr_left
    intro p _
    simp
  · intro id rows row h1 h2
    unfold SingleCPTBearingResultsContainer.get_results_per_cpt
    rw [List.mem_flatMap]
    refine ⟨(id, rows), h1, ?_⟩
    rw [List.mem_map]
    exact ⟨row, h2, rfl⟩

/-- Evaluation: one-row lookup at its own level yields the stored value. -/
theorem lv_hit (v : ℚ) : lookupValue [mkRow (-15) v] (-15) = some v := by
  rw [lookupValue_cons_eq (mkRow (-15) v) [] (-15) rfl]
  rfl

/-- Evaluation: one-row lookup at level -18 misses a row at level -15. -/
theorem lv_miss18 (v : ℚ) : lookupValue [mkRow (-15) v] (-18) = none := by
  rw [lookupValue_cons_ne (mkRow (-15) v) [] (-18) (by norm_num [mkRow, roundTo2, round_eq])]
  rfl

/-- Evaluation: one-row lookup at level -99 misses a row at level -15. -/
theorem lv_miss99 (v : ℚ) : lookupValue [mkRow (-15) v] (-99) = none := by
  rw [lookupValue_cons_ne (mkRow (-15) v) [] (-99) (by norm_num [mkRow, roundTo2, round_eq])]
  rfl

/-- Evaluation: member A of the tie store. -/
theorem mv_tie_A : memberValueAt dictTie "A" (-15) = some 500 := by
  unfold memberValueAt dictTie
  rw [lookupRows_cons_eq "A" _ _ "A" rfl]
  show lookupValue [mkRow (-15) 500] (-15) = some 500
  exact lv_hit 500

/-- Evaluation: member B of the tie store. -/
theorem mv_tie_B : memberValueAt dictTie "B" (-15) = some 500 := by
  unfold memberValueAt dictTie
  rw [lookupRows_cons_ne "A" _ _ "B" (by decide), lookupRows_cons_eq "B" _ _ "B" rfl]
  show lookupValue [mkRow (-15) 500] (-15) = some 500
  exact lv_hit 500

/-- Evaluation: collected member values of the tie store at level -15. -/
theorem coll_tie : collectValues (fun m => memberValueAt dictTie m (-15)) ["A", "B"] =
    some [500, 500] := by
  simp [collectValues, mv_tie_A, mv_tie_B]

/-- Evaluation: cluster result of the tie store at level -15. -/
theorem cr_tie : clusterResultAt dictTie ["A", "B"] 400 (-15) =
    some { pile_tip_level_nap := -15, mean_R_c_d_net := 500, sample_variance := 0,
           cpt_count := 2, valid := true } := by
  unfold clusterResultAt
  rw [coll_tie]
  norm_num [listMean, listSampleVariance, vcThresholdSq, roundTo2, round_eq,
    Bool.and_eq_true, decide_eq_true_eq]

/-- Evaluation: eligible groups of the tie store at level -15. -/
theorem eg_tie : eligibleGroupsAt dictTie [clusterAB] 400 (-15) =
    [("AB", OriginCategory.group, 500)] := by
  unfold eligibleGroupsAt clusterAB
  rw [List.filterMap_cons]
  rw [cr_tie]
  rfl

/-- Evaluation: eligible singles of the tie store at level -15. -/
theorem es_tie : eligibleSinglesAt dictTie (-15) =
    [("A", OriginCategory.single, 500), ("B", OriginCategory.single, 500)] := by
  unfold eligibleSinglesAt dictTie
  simp only [List.filterMap_cons, List.filterMap_nil, lv_hit]

/-- Evaluation: all eligible origins of the tie store at level -15. -/
theorem ea_tie : eligibleAt dictTie [clusterAB] 400 (-15) =
    [("AB", OriginCategory.group, 500), ("A", OriginCategory.single, 500),
     ("B", OriginCategory.single, 500)] := by
  unfold eligibleAt
  rw [eg_tie, es_tie]
  rfl

/-- Evaluation: the max-bearing selection of the tie store at level -15 lands
on the clustered group. -/
theorem max_tie : maxBearingAt dictTie [clusterAB] 400 (-15) =
    some { pile_tip_level_nap := -15, R_c_d_net := 500, origin := "AB",
           category := OriginCategory.group } := by
  unfold maxBearingAt
  rw [ea_tie]
  norm_num [pickMax, roundTo2, round_eq, Option.map_some]

/-- Evaluation: member A of the scenario store. -/
theorem mv_scenario_A : memberValueAt dictScenario "A" (-15) = some 500 := by
  unfold memberValueAt dictScenario
  rw [lookupRows_cons_eq "A" _ _ "A" rfl]
  show lookupValue [mkRow (-15) 500] (-15) = some 500
  exact lv_hit 500

/-- Evaluation: member B of the scenario store. -/
theorem mv_scenario_B : memberValueAt dictScenario "B" (-15) = some 520 := by
  unfold memberValueAt dictScenario
  rw [lookupRows_cons_ne "A" _ _ "B" (by decide), lookupRows_cons_eq "B" _ _ "B" rfl]
  show lookupValue [mkRow (-15) 520] (-15) = some 520
  exact lv_hit 520

/-- Evaluation: collected member values of the scenario store at level -15. -/
theorem coll_scenario :
    collectValues (fun m => memberValueAt dictScenario m (-15)) ["A", "B"] =
      some [500, 520] := by
  simp [collectValues, mv_scenario_A, mv_scenario_B]

/-- Evaluation: cluster result of the scenario store at level -15: mean 510,
sample variance 200, valid. -/
theorem cr_scenario : clusterResultAt dictScenario ["A", "B"] 400 (-15) =
    some { pile_tip_level_nap := -15, mean_R_c_d_net := 510, sample_variance := 200,
           cpt_count := 2, valid := true } := by
  unfold clusterResultAt
  rw [coll_scenario]
  norm_num [listMean, listSampleVariance, vcThresholdSq, roundTo2, round_eq,
    Bool.and_eq_true, decide_eq_true_eq]

/-- Evaluation: member A of the spread store. -/
theorem mv_spread_A : memberValueAt dictSpread "A" (-15) = some 300 := by
  unfold memberValueAt dictSpread
  rw [lookupRows_cons_eq "A" _ _ "A" rfl]
  show lookupValue [mkRow (-15) 300] (-15) = some 300
  exact lv_hit 300

/-- Evaluation: member B of the spread store. -/
theorem mv_spread_B : memberValueAt dictSpread "B" (-15) = some 700 := by
  unfold memberValueAt dictSpread
  rw [lookupRows_cons_ne "A" _ _ "B" (by decide), lookupRows_cons_eq "B" _ _ "B" rfl]
  show lookupValue [mkRow (-15) 700] (-15) = some 700
  exact lv_hit 700

/-- Evaluation: collected member values of the spread store at level -15. -/
theorem coll_spread :
    collectValues (fun m => memberValueAt dictSpread m (-15)) ["A", "B"] =
      some [300, 700] := by
  simp [collectValues, mv_spread_A, mv_spread_B]

/-- Evaluation: cluster result of the spread store at level -15: the mean 500
meets the 400 load but the sample variance 80000 exceeds the squared
variation-coefficient bound, so the cluster is invalid. -/
theorem cr_spread : clusterResultAt dictSpread ["A", "B"] 400 (-15) =
    some { pile_tip_level_nap := -15, mean_R_c_d_net := 500, sample_variance := 80000,
           cpt_count := 2, valid := false } := by
  unfold clusterResultAt
  rw [coll_spread]
  norm_num [listMean, listSampleVariance, vcThresholdSq, roundTo2, round_eq,
    Bool.and_eq_false_iff, decide_eq_false_iff_not]

/-- Evaluation: no clustered group is eligible in the spread store at level
-15, the 40 percent variation coefficient having invalidated the cluster. -/
theorem eg_spread : eligibleGroupsAt dictSpread [clusterAB] 400 (-15) = [] := by
  unfold eligibleGroupsAt clusterAB
  rw [List.filterMap_cons]
  rw [cr_spread]
  rfl

/-- Evaluation: eligible singles of the spread store at level -15. -/
theorem es_spread : eligibleSinglesAt dictSpread (-15) =
    [("A", OriginCategory.single, 300), ("B", OriginCategory.single, 700)] := by
  unfold eligibleSinglesAt dictSpread
  simp only [List.filterMap_cons, List.filterMap_nil, lv_hit]

/-- Evaluation: all eligible origins of the spread store at level -15. -/
theorem ea_spread : eligibleAt dictSpread [clusterAB] 400 (-15) =
    [("A", OriginCategory.single, 300), ("B", OriginCategory.single, 700)] := by
  unfold eligibleAt
  rw [eg_spread, es_spread]
  rfl

/-- Evaluation: the max-bearing selection of the spread store at level -15
lands on single CPT B with 700 kN. -/
theorem max_spread : maxBearingAt dictSpread [clusterAB] 400 (-15) =
    some { pile_tip_level_nap := -15, R_c_d_net := 700, origin := "B",
           category := OriginCategory.single } := by
  unfold maxBearingAt
  rw [ea_spread]
  norm_num [pickMax, roundTo2, round_eq, Option.map_some]

/-- Evaluation: member A of the spread store has no value at level -99. -/
theorem mv_spread_A99 : memberValueAt dictSpread "A" (-99) = none := by
  unfold memberValueAt dictSpread
  rw [lookupRows_cons_eq "A" _ _ "A" rfl]
  show lookupValue [mkRow (-15) 300] (-99) = none
  exact lv_miss99 300

/-- Evaluation: no clustered group is eligible in the spread store at -99. -/
theorem eg_spread99 : eligibleGroupsAt dictSpread [clusterAB] 400 (-99) = [] := by
  unfold eligibleGroupsAt clusterAB
  rw [List.filterMap_cons]
  have hcr : clusterResultAt dictSpread ["A", "B"] 400 (-99) = none := by
    unfold clusterResultAt
    rw [collectValues_eq_none (fun m => memberValueAt dictSpread m (-99)) ["A", "B"] "A"
      (List.mem_cons_self "A" ["B"]) mv_spread_A99]
  rw [hcr]
  rfl

/-- Evaluation: no single CPT is eligible in the spread store at -99. -/
theorem es_spread99 : eligibleSinglesAt dictSpread (-99) = [] := by
  unfold eligibleSinglesAt dictSpread
  simp only [List.filterMap_cons, List.filterMap_nil, lv_miss99]

/-- Evaluation: no origin at all is eligible in the spread store at -99. -/
theorem ea_spread99 : eligibleAt dictSpread [clusterAB] 400 (-99) = [] := by
  unfold eligibleAt
  rw [eg_spread99, es_spread99]
  rfl

/-- Evaluation: member A of the gap store at level -15. -/
theorem mv_gap_A15 : memberValueAt dictGap "A" (-15) = some 500 := by
  unfold memberValueAt dictGap
  rw [lookupRows_cons_eq "A" _ _ "A" rfl]
  show lookupValue [mkRow (-15) 500] (-15) = some 500
  exact lv_hit 500

/-- Evaluation: member A of the gap store has no row at level -18. -/
theorem mv_gap_A18 : memberValueAt dictGap "A" (-18) = none := by
  unfold memberValueAt dictGap
  rw [lookupRows_cons_eq "A" _ _ "A" rfl]
  show lookupValue [mkRow (-15) 500] (-18) = none
  exact lv_miss18 500

/-- Evaluation: member B of the gap store at level -15. -/
theorem mv_gap_B15 : memberValueAt dictGap "B" (-15) = some 520 := by
  unfold memberValueAt dictGap
  rw [lookupRows_cons_ne "A" _ _ "B" (by decide), lookupRows_cons_eq "B" _ _ "B" rfl]
  show lookupValue [mkRow (-15) 520, mkRow (-18) 480] (-15) = some 520
  rw [lookupValue_cons_eq (mkRow (-15) 520) [mkRow (-18) 480] (-15) rfl]
  rfl

/-- Evaluation: member A of the single-CPT store at level -15. -/
theorem mv_single_A : memberValueAt dictSingle "A" (-15) = some 500 := by
  unfold memberValueAt dictSingle
  rw [lookupRows_cons_eq "A" _ _ "A" rfl]
  show lookupValue [mkRow (-15) 500] (-15) = some 500
  exact lv_hit 500

/-- Witness for C1: in the tie store the selected max-bearing row has a group
origin, and the theorem recovers the valid cluster behind it. -/
theorem max_bearing_group_origin_vc_filtered_witness :
    ∃ c ∈ [clusterAB], ∃ r, clusterResultAt dictTie c.members 400 (-15) = some r ∧
      ("AB" : String) = c.cluster_id ∧ (500 : ℚ) = r.mean_R_c_d_net ∧
      r.valid = true ∧
      (400 : ℚ) ≤ r.mean_R_c_d_net ∧
      r.sample_variance ≤ vcThresholdSq * r.mean_R_c_d_net ^ 2 :=
  max_bearing_group_origin_vc_filtered dictTie [clusterAB] 400 (-15)
    { pile_tip_level_nap := -15, R_c_d_net := 500, origin := "AB",
      category := OriginCategory.group } max_tie rfl

/-- Witness for C2: in the spread store at level -15 the selected value 700 is
the maximum over the eligible origins, and at level -99, where no origin is
eligible, the result is absent. -/
theorem max_bearing_envelope_value_witness :
    (((("B" : String), OriginCategory.single, (700 : ℚ)) ∈
        eligibleAt dictSpread [clusterAB] 400 (-15) ∧
      ∀ e ∈ eligibleAt dictSpread [clusterAB] 400 (-15), e.2.2 ≤ (700 : ℚ)) ∧
    maxBearingAt dictSpread [clusterAB] 400 (-99) = none) :=
  ⟨(max_bearing_envelope_value dictSpread [clusterAB] 400 (-15)).1
      { pile_tip_level_nap := -15, R_c_d_net := 700, origin := "B",
        category := OriginCategory.single } max_spread,
   (max_bearing_envelope_value dictSpread [clusterAB] 400 (-99)).2 ea_spread99⟩

/-- Witness for C3: the spec scenario 500 and 520 kN at 400 kN load: mean 510,
sample variance 200 (squared sample standard deviation, which lies between
14.14 squared and 14.15 squared), validity holding. -/
theorem cluster_result_statistics_witness :
    (((1414 : ℚ) / 100) ^ 2 < 200 ∧ (200 : ℚ) < ((1415 : ℚ) / 100) ^ 2) ∧
    ∃ vs, collectValues (fun m => memberValueAt dictScenario m (-15)) ["A", "B"] =
        some vs ∧
      vs.length = 2 ∧ 2 ≤ vs.length ∧
      (510 : ℚ) = vs.sum / vs.length ∧
      (200 : ℚ) =
        ((vs.map (fun v => (v - vs.sum / vs.length) ^ 2)).sum) / ((vs.length : ℚ) - 1) ∧
      (true = true ↔
        (400 : ℚ) ≤ 510 ∧ (200 : ℚ) ≤ (12 / 100) ^ 2 * (510 : ℚ) ^ 2) :=
  ⟨by norm_num,
   cluster_result_statistics dictScenario ["A", "B"] 400 (-15)
     { pile_tip_level_nap := -15, mean_R_c_d_net := 510, sample_variance := 200,
       cpt_count := 2, valid := true } cr_scenario (by norm_num)⟩

/-- Witness for C4: in the gap store the cluster loses only level -18, where
member A has no row, and still produces a result at level -15. -/
theorem cluster_missing_level_local_witness :
    clusterResultAt dictGap ["A", "B"] 400 (-18) = none ∧
    (clusterResultAt dictGap ["A", "B"] 400 (-15)).isSome = true :=
  ⟨(cluster_missing_level_local dictGap ["A", "B"] 400).1 (-18)
      ⟨"A", List.mem_cons_self "A" ["B"], mv_gap_A18⟩,
   (cluster_missing_level_local dictGap ["A", "B"] 400).2 (-15) (by
      intro m hm
      rcases List.mem_cons.mp hm with rfl | hm
      · rw [mv_gap_A15]; rfl
      rcases List.mem_cons.mp hm with rfl | hm
      · rw [mv_gap_B15]; rfl
      · cases hm)⟩

/-- Witness for C5: one CPT is fewer than 2, so payload construction yields the
validation error and no payload, while empty candidate sets stay ordinary
values downstream. -/
theorem create_grouper_payload_validation_witness :
    (create_grouper_payload dictSingle 400 =
      Except.error "create_grouper_payload requires at least 2 CPTs") ∧
    (∀ p : GrouperPayload, ¬ create_grouper_payload dictSingle 400 = Except.ok p) ∧
    (∀ level, eligibleGroupsAt dictSingle [] 400 level = []) ∧
    (∀ clusters level, eligibleAt dictSingle clusters 400 level = [] →
        maxBearingAt dictSingle clusters 400 level = none) :=
  create_grouper_payload_validation dictSingle 400 (by simp [dictSingle])

/-- Witness for C6: the levels -15.004 and -15 agree after rounding to 2
decimals, so lookup aligns them; and the scenario run axis and the max-bearing
table level column are sorted consistently. -/
theorem pile_tip_level_alignment_and_ordering_witness :
    lookupValue [mkRow (-15) 500] (-15004 / 1000) =
      lookupValue [mkRow (-15) 500] (-15) ∧
    List.Sorted (· ≤ ·) (allLevels dictScenario) ∧
    List.Sublist
      ((maxBearingTable dictScenario [clusterAB] 400).map
        MaxBearingResult.pile_tip_level_nap)
      (allLevels dictScenario) ∧
    List.Sorted (· ≤ ·)
      ((maxBearingTable dictScenario [clusterAB] 400).map
        MaxBearingResult.pile_tip_level_nap) :=
  ⟨(pile_tip_level_alignment_and_ordering dictScenario [clusterAB] ["A", "B"] 400).1
      [mkRow (-15) 500] (-15004 / 1000) (-15) (by norm_num [roundTo2, round_eq]),
   (pile_tip_level_alignment_and_ordering dictScenario [clusterAB] ["A", "B"] 400).2.1,
   (pile_tip_level_alignment_and_ordering dictScenario [clusterAB] ["A", "B"] 400).2.2.1,
   (pile_tip_level_alignment_and_ordering dictScenario [clusterAB] ["A", "B"] 400).2.2.2.1⟩

/-- Witness for C8: the singleton cluster over the single-CPT store reproduces
the 500 kN value with contributing count 1. -/
theorem singleton_cluster_identity_witness :
    ∃ r, clusterResultAt dictSingle ["A"] 400 (-15) = some r ∧
      r.mean_R_c_d_net = (500 : ℚ) ∧ r.cpt_count = 1 :=
  singleton_cluster_identity dictSingle 400 (-15) "A" 500 mv_single_A

/-- Witness for C9: in the tie store the clustered group and both single CPTs
all offer exactly 500 kN, and the selected origin has the group category. -/
theorem max_bearing_tie_prefers_group_witness :
    ∃ res, maxBearingAt dictTie [clusterAB] 400 (-15) = some res ∧
      res.category = OriginCategory.group ∧ res.R_c_d_net = (500 : ℚ) :=
  max_bearing_tie_prefers_group dictTie [clusterAB] 400 (-15)
    ("AB", OriginCategory.group, 500)
    (by rw [ea_tie]; exact List.mem_cons_self _ _)
    rfl
    (by
      intro x hx
      rw [ea_tie] at hx
      rcases List.mem_cons.mp hx with rfl | hx
      · exact le_refl _
      rcases List.mem_cons.mp hx with rfl | hx
      · exact le_refl _
      rcases List.mem_cons.mp hx with rfl | hx
      · exact le_refl _
      · cases hx)

/-- Witness for C10: the container holding a NaN row still lists that row in
the per-CPT table. -/
theorem get_results_per_cpt_preserves_nan_witness :
    ("A", rowNaN (-18)) ∈ containerNaN.get_results_per_cpt ∧
    (rowNaN (-18)).R_c_d_net = none :=
  ⟨(get_results_per_cpt_preserves_nan containerNaN).2 "A"
      [mkRow (-15) 500, rowNaN (-18)] (rowNaN (-18))
      (List.mem_cons_self _ _)
      (List.mem_cons_of_mem _ (List.mem_cons_self _ _)),
   rfl⟩

end PyPileCore
